import Mathlib

/-!
Verification development for the acme-dental repository.

The repository is a natural-language front end for booking dental
appointments.  Its core, per the specification, is the availability
synchronization layer (CacheStore, UpstreamClient, BackgroundRefresher,
InvalidationGateway, AvailabilityService) living in the Python backend
(backend/src/cache.py, calendly.py, webhooks.py per the README project
structure); those backend sources are not part of the provided source
slice, so the layer is modelled from the specification text and from
src/Architectural_decisions.md.  The frontend TypeScript sources
(src/frontend/src/App.tsx, src/frontend/src/services/api.ts) are present
and are embedded directly.
-/

namespace AcmeDental

/-! ## Data model (modelled from the spec, section 3) -/

/-- Modelled from the spec: a CacheKey is a normalized identifier for a
queryable availability window (resource identifier + date range,
canonicalized).  We model it as an opaque string identifier. -/
abbrev Key := String

/-- Modelled from the spec: a Slot is a bookable time window with start
and end timestamps, a resource identifier and a provider-issued opaque
scheduling-link token.  Immutable once fetched. -/
structure Slot where
  startTime : Nat
  endTime : Nat
  resource : String
  token : String
  deriving Repr, DecidableEq

/-- Modelled from the spec: the source tag on a cache entry, either a
background refresh or an invalidation-triggered refetch. -/
inductive EntrySource where
  | refresh
  | invalidationRefetch
  deriving Repr, DecidableEq

/-- Modelled from the spec: a CacheEntry holds the slot list plus
freshness metadata; entries are replaced wholesale, never mutated
field-by-field. -/
structure CacheEntry where
  slots : List Slot
  fetched_at : Nat
  source : EntrySource
  deriving Repr, DecidableEq

/-- Modelled from the spec: CacheStats counters, monotonic except
last_refresh_error which is cleared on the next successful refresh. -/
structure CacheStats where
  hits : Nat
  misses : Nat
  refresh_count : Nat
  last_refresh_at : Option Nat
  last_refresh_error : Option String
  invalidation_count : Nat
  deriving Repr, DecidableEq

/-- Modelled from the spec: the shared mutable state of the availability
synchronization layer: the CacheStore map, the CacheStats counters, and
the list of bookings created upstream (used to state that the
invalidation path never creates bookings). -/
structure SyncState where
  store : Key → Option CacheEntry
  stats : CacheStats
  bookings : List String

/-- The initial empty state: CacheStore is created empty at process
start, all counters zero. -/
def initState : SyncState :=
  { store := fun _ => none
    stats := { hits := 0, misses := 0, refresh_count := 0,
               last_refresh_at := none, last_refresh_error := none,
               invalidation_count := 0 }
    bookings := [] }

/-- Pointwise update of the store map: entry replacement is wholesale and
atomic from the perspective of the reader of the resulting map. -/
def storeSet (f : Key → Option CacheEntry) (k : Key) (v : Option CacheEntry) :
    Key → Option CacheEntry :=
  fun q => if q = k then v else f q

/-! ## CacheStore contract (modelled from the spec, section 4.1) -/

/-- Modelled from the spec: CacheStore.get returns the current entry for
the key, if any. -/
def CacheStore.get (st : SyncState) (k : Key) : Option CacheEntry :=
  st.store k

/-- Modelled from the spec: CacheStore.put replaces the entry for the key
wholesale. -/
def CacheStore.put (st : SyncState) (k : Key) (e : CacheEntry) : SyncState :=
  { st with store := storeSet st.store k (some e) }

/-- Modelled from the spec: CacheStore.invalidate removes the entry for
the key without performing a refetch, counting the invalidation. -/
def CacheStore.invalidate (st : SyncState) (k : Key) : SyncState :=
  { st with store := storeSet st.store k none
            stats := { st.stats with
                       invalidation_count := st.stats.invalidation_count + 1 } }

/-- Modelled from the spec: the operations that callers may interleave on
the shared CacheStore: puts and invalidations (the writers), and the
stats bumps done by readers on hit and miss. -/
inductive Op where
  | put (k : Key) (e : CacheEntry)
  | invalidate (k : Key)
  | noteHit
  | noteMiss
  deriving Repr

/-- Applying one operation to the shared state. -/
def applyOp (st : SyncState) : Op → SyncState
  | .put k e => CacheStore.put st k e
  | .invalidate k => CacheStore.invalidate st k
  | .noteHit => { st with stats := { st.stats with hits := st.stats.hits + 1 } }
  | .noteMiss => { st with stats := { st.stats with misses := st.stats.misses + 1 } }

/-- Applying a sequence of interleaved operations, in order. -/
def applyOps (st : SyncState) (ops : List Op) : SyncState :=
  List.foldl applyOp st ops

/-- Whether an operation writes the store at the given key. -/
def writesKey : Op → Key → Bool
  | .put k _, q => decide (k = q)
  | .invalidate k, q => decide (k = q)
  | .noteHit, _ => false
  | .noteMiss, _ => false

theorem applyOp_store_of_not_writes (st : SyncState) (op : Op) (k : Key)
    (h : writesKey op k = false) : (applyOp st op).store k = st.store k := by
  cases op with
  | put k' e =>
      simp only [writesKey, decide_eq_false_iff_not] at h
      have hne : k ≠ k' := fun hq => h hq.symm
      simp [applyOp, CacheStore.put, storeSet, hne]
  | invalidate k' =>
      simp only [writesKey, decide_eq_false_iff_not] at h
      have hne : k ≠ k' := fun hq => h hq.symm
      simp [applyOp, CacheStore.invalidate, storeSet, hne]
  | noteHit => rfl
  | noteMiss => rfl

theorem applyOps_store_of_not_writes (ops : List Op) (st : SyncState) (k : Key)
    (h : ∀ op ∈ ops, writesKey op k = false) :
    (applyOps st ops).store k = st.store k := by
  induction ops generalizing st with
  | nil => rfl
  | cons op ops ih =>
      have hop : writesKey op k = false := h op (List.mem_cons_self op ops)
      have hrest : ∀ o ∈ ops, writesKey o k = false :=
        fun o ho => h o (List.mem_cons_of_mem op ho)
      calc (applyOps st (op :: ops)).store k
          = (applyOps (applyOp st op) ops).store k := rfl
        _ = (applyOp st op).store k := ih (applyOp st op) hrest
        _ = st.store k := applyOp_store_of_not_writes st op k hop

/-- C1: once put(K, E) has returned, every subsequent get(K), across any
interleaving of further operations none of which writes K, returns
exactly E (hence E or a strictly newer entry, never an older one), and
never a torn entry: the model replaces entries wholesale, so a reader
always observes a complete CacheEntry. -/
theorem put_get_until_next_write (st : SyncState) (k : Key) (e : CacheEntry)
    (ops : List Op) (h : ∀ op ∈ ops, writesKey op k = false) :
    CacheStore.get (applyOps (CacheStore.put st k e) ops) k = some e := by
  have hbase : (CacheStore.put st k e).store k = some e := by
    simp [CacheStore.put, storeSet]
  calc CacheStore.get (applyOps (CacheStore.put st k e) ops) k
      = (applyOps (CacheStore.put st k e) ops).store k := rfl
    _ = (CacheStore.put st k e).store k :=
        applyOps_store_of_not_writes ops (CacheStore.put st k e) k h
    _ = some e := hbase

/-- Witness for C1: a concrete put followed by unrelated operations still
yields the stored entry. -/
theorem put_get_until_next_write_witness :
    CacheStore.get
      (applyOps (CacheStore.put initState "r1:2026-01-01"
          { slots := [], fetched_at := 5, source := .refresh })
        [Op.noteHit, Op.invalidate "r2:2026-01-01", Op.noteMiss]) "r1:2026-01-01"
      = some { slots := [], fetched_at := 5, source := .refresh } :=
  put_get_until_next_write initState "r1:2026-01-01"
    { slots := [], fetched_at := 5, source := .refresh }
    [Op.noteHit, Op.invalidate "r2:2026-01-01", Op.noteMiss]
    (by intro op hop; fin_cases hop <;> decide)

/-! ## UpstreamClient retry policy (modelled from the spec, section 4.2,
and src/Architectural_decisions.md item 10, which says Calendly API calls
automatically retry up to 3 times with exponential backoff, 1s, 2s, 4s
delays). -/

/-- Modelled from the spec: the outcome of one read attempt against the
upstream provider: success with a slot list, a retryable transient
failure (network error, 5xx, timeout), or a non-retryable 4xx
validation rejection. -/
inductive AttemptResult where
  | ok (slots : List Slot)
  | transient (msg : String)
  | rejected (msg : String)
  deriving Repr, DecidableEq

/-- Modelled from the spec: the overall outcome surfaced to the caller of
a retried read: the successful result, UpstreamUnavailable after retries
are exhausted, or the immediately surfaced 4xx rejection. -/
inductive RetryOutcome where
  | success (slots : List Slot)
  | unavailable (msg : String)
  | rejectedNow (msg : String)
  deriving Repr, DecidableEq

/-- A finished retried call: its outcome, how many attempts were made,
and the backoff delays (in seconds) slept between attempts. -/
structure RetryRun where
  outcome : RetryOutcome
  attempts : Nat
  delays : List Nat
  deriving Repr, DecidableEq

/-- Modelled from the spec: the retry loop for read calls.  The attempt
at index i is given by f i; after a transient failure of attempt i, with
retries remaining, the caller sleeps 2 to the power i seconds (1s, 2s,
4s) and tries again; a rejected (4xx) attempt fails immediately with no
retry; when the retry budget is exhausted the transient failure surfaces
as UpstreamUnavailable. -/
def retryAux (f : Nat → AttemptResult) : Nat → Nat → List Nat → RetryRun
  | i, fuel, ds =>
    match f i with
    | .ok s => { outcome := .success s, attempts := i + 1, delays := ds }
    | .rejected m => { outcome := .rejectedNow m, attempts := i + 1, delays := ds }
    | .transient m =>
        match fuel with
        | 0 => { outcome := .unavailable m, attempts := i + 1, delays := ds }
        | fuel' + 1 => retryAux f (i + 1) fuel' (ds ++ [2 ^ i])

/-- Modelled from the spec: a read call retries up to 3 times after the
initial attempt (src/Architectural_decisions.md: retry up to 3 times
with 1s, 2s, 4s delays), so at most 4 attempts are made in total. -/
def retryCall (f : Nat → AttemptResult) : RetryRun :=
  retryAux f 0 3 []

/-- The attempt sequence of the claimed scenario: three transient
failures followed by a success. -/
def threeFailOneOk : Nat → AttemptResult :=
  fun i => if i < 3 then .transient "network" else
    .ok [{ startTime := 9, endTime := 10, resource := "r1", token := "t" }]

/-- Counterexample for C2: on three transient failures followed by a
success, the policy makes 4 attempts, not at most 3 as the claim states
(the claim itself also demands that the 4th attempt result be returned,
which is impossible under a 3-attempt total). -/
theorem retry_four_attempts_counterexample :
    (retryCall threeFailOneOk).attempts = 4 ∧ ¬ (retryCall threeFailOneOk).attempts ≤ 3 := by
  constructor
  · rfl
  · decide

/-- C2 (amended): every read call makes at most 4 attempts in total (one
initial attempt plus up to 3 retries); a 4xx rejection on the first
attempt fails immediately with one attempt and no delay; and three
transient failures followed by a success yield the 4th attempt result
returned to the caller with delays of 1s, 2s, 4s between attempts. -/
theorem retry_policy_spec (f : Nat → AttemptResult) :
    (retryCall f).attempts ≤ 4 ∧
    (∀ m, f 0 = .rejected m →
      retryCall f = { outcome := .rejectedNow m, attempts := 1, delays := [] }) ∧
    (∀ s, (∀ i, i < 3 → ∃ m, f i = .transient m) → f 3 = .ok s →
      retryCall f = { outcome := .success s, attempts := 4, delays := [1, 2, 4] }) := by
  refine ⟨?_, ?_, ?_⟩
  · rcases h0 : f 0 with s0 | m0 | m0 <;>
      simp only [retryCall, retryAux, h0] <;> try omega
    rcases h1 : f 1 with s1 | m1 | m1 <;>
      simp only [retryAux, h1] <;> try omega
    rcases h2 : f 2 with s2 | m2 | m2 <;>
      simp only [retryAux, h2] <;> try omega
    rcases h3 : f 3 with s3 | m3 | m3 <;>
      simp only [retryAux, h3] <;> omega
  · intro m h0
    simp only [retryCall, retryAux, h0]
  · intro s hfail hok
    obtain ⟨m0, h0⟩ := hfail 0 (by omega)
    obtain ⟨m1, h1⟩ := hfail 1 (by omega)
    obtain ⟨m2, h2⟩ := hfail 2 (by omega)
    simp only [retryCall, retryAux, h0, h1, h2, hok]
    rfl

/-- Witness for C2 (amended): the scenario of three transient failures
followed by a success, evaluated concretely. -/
theorem retry_policy_spec_witness :
    retryCall threeFailOneOk =
      { outcome := .success
          [{ startTime := 9, endTime := 10, resource := "r1", token := "t" }],
        attempts := 4, delays := [1, 2, 4] } :=
  (retry_policy_spec threeFailOneOk).2.2
    [{ startTime := 9, endTime := 10, resource := "r1", token := "t" }]
    (by intro i hi
        refine ⟨"network", ?_⟩
        interval_cases i <;> rfl)
    rfl

/-! ## Mutation calls and ambiguous failures (spec section 4.2 side
effects, section 7 UpstreamAmbiguous). -/

/-- Modelled from the spec: the outcome of one mutation attempt
(create_booking or cancel_booking): success; a failure known to be
pre-send (connection refused before bytes flushed), which is safe to
retry; an ambiguous failure (timeout after the request was sent), which
must never be retried; or a 4xx rejection. -/
inductive MutAttempt where
  | ok (v : String)
  | preSend (msg : String)
  | ambiguousAfterSend (msg : String)
  | rejected (msg : String)
  deriving Repr, DecidableEq

/-- Modelled from the spec: the outcome surfaced to the caller of a
mutation call, with UpstreamAmbiguous surfaced as a distinct case. -/
inductive MutOutcome where
  | success (v : String)
  | unavailable (msg : String)
  | rejectedNow (msg : String)
  | upstreamAmbiguous (msg : String)
  deriving Repr, DecidableEq

/-- A finished mutation call: outcome and number of attempts made. -/
structure MutRun where
  outcome : MutOutcome
  attempts : Nat
  deriving Repr, DecidableEq

/-- Modelled from the spec: the retry loop for mutation calls: only
errors known to be pre-send are retried; an ambiguous failure is
surfaced immediately as UpstreamAmbiguous, never silently retried; a
rejection is surfaced immediately. -/
def mutStop (i : Nat) : MutAttempt → MutRun
  | .ok v => { outcome := .success v, attempts := i + 1 }
  | .rejected m => { outcome := .rejectedNow m, attempts := i + 1 }
  | .ambiguousAfterSend m => { outcome := .upstreamAmbiguous m, attempts := i + 1 }
  | .preSend m => { outcome := .unavailable m, attempts := i + 1 }

/-- One step of the mutation retry loop: with retries remaining, only a
pre-send failure leads to another attempt; without retries remaining the
attempt result is surfaced directly. -/
def mutRetryAux (f : Nat → MutAttempt) : Nat → Nat → MutRun
  | i, 0 => mutStop i (f i)
  | i, fuel + 1 =>
    match f i with
    | .preSend _ => mutRetryAux f (i + 1) fuel
    | r => mutStop i r

/-- Modelled from the spec: a mutation call with the shared retry budget
of 3 retries after the initial attempt. -/
def mutCall (f : Nat → MutAttempt) : MutRun :=
  mutRetryAux f 0 3

theorem mutRetryAux_ambiguous (f : Nat → MutAttempt) (m : String) :
    ∀ fuel i, f i = .ambiguousAfterSend m →
      mutRetryAux f i fuel = { outcome := .upstreamAmbiguous m, attempts := i + 1 } := by
  intro fuel i hi
  cases fuel <;> simp only [mutRetryAux, hi, mutStop]

theorem mutRetryAux_retries_only_preSend (f : Nat → MutAttempt) :
    ∀ fuel i j, i ≤ j → j + 1 < (mutRetryAux f i fuel).attempts →
      ∃ m, f j = .preSend m := by
  intro fuel
  induction fuel with
  | zero =>
      intro i j hij hlt
      rcases hi : f i with v | m | m | m <;>
        simp only [mutRetryAux, hi, mutStop] at hlt <;> omega
  | succ fuel ih =>
      intro i j hij hlt
      rcases hi : f i with v | m | m | m <;>
        simp only [mutRetryAux, hi, mutStop] at hlt
      case ok => omega
      case preSend =>
        rcases Nat.lt_or_ge j (i + 1) with hj | hj
        · have hji : j = i := by omega
          exact ⟨m, hji ▸ hi⟩
        · exact ih (i + 1) j hj hlt
      case ambiguousAfterSend => omega
      case rejected => omega

/-- C6: a mutation call never retries past an ambiguous failure: if
attempt n fails ambiguously (all earlier attempts having been pre-send
failures, the only retried kind), the call stops at attempt n + 1 and
surfaces UpstreamAmbiguous distinctly; moreover any attempt that was
followed by another attempt had failed with a pre-send error, so
mutation calls are retried only on errors known to be pre-send. -/
theorem mutation_no_retry_after_ambiguous (f : Nat → MutAttempt) :
    (∀ n m, n ≤ 3 → f n = .ambiguousAfterSend m →
      (∀ i, i < n → ∃ m', f i = .preSend m') →
      mutCall f = { outcome := .upstreamAmbiguous m, attempts := n + 1 }) ∧
    (∀ j, j + 1 < (mutCall f).attempts → ∃ m, f j = .preSend m) := by
  constructor
  · intro n m hn hamb hpre
    have step : ∀ k fuel, k + fuel = 3 → k ≤ n →
        mutRetryAux f k fuel = { outcome := .upstreamAmbiguous m, attempts := n + 1 } := by
      intro k fuel
      induction fuel generalizing k with
      | zero =>
          intro hsum hkn
          have hk3 : k = 3 := by omega
          have hkn : k = n := by omega
          subst hkn
          simp only [mutRetryAux, hamb, mutStop]
      | succ fuel ih =>
          intro hsum hkn
          rcases Nat.lt_or_ge k n with hk | hk
          · obtain ⟨m', hm'⟩ := hpre k hk
            simp only [mutRetryAux, hm']
            exact ih (k + 1) (by omega) (by omega)
          · have hkn : k = n := by omega
            subst hkn
            simp only [mutRetryAux, hamb, mutStop]
    exact step 0 3 rfl (by omega)
  · intro j hj
    exact mutRetryAux_retries_only_preSend f 3 0 j (by omega) hj

/-- Witness for C6: a concrete mutation call whose second attempt times
out after the request was sent, after a pre-send connection refusal on
the first attempt: it stops at 2 attempts with UpstreamAmbiguous. -/
theorem mutation_no_retry_after_ambiguous_witness :
    mutCall (fun i => if i = 0 then .preSend "conn refused"
                      else .ambiguousAfterSend "timeout after send")
      = { outcome := .upstreamAmbiguous "timeout after send", attempts := 2 } :=
  (mutation_no_retry_after_ambiguous _).1 1 "timeout after send" (by omega)
    rfl
    (by intro i hi
        have : i = 0 := by omega
        subst this
        exact ⟨"conn refused", rfl⟩)

/-! ## BackgroundRefresher refresh cycle (modelled from the spec,
section 4.3): every interval, for each tracked key, call UpstreamClient
and put the result into CacheStore; a failed fetch for one key does not
abort the cycle for the other keys and leaves the previous entry of the
failed key intact while recording last_refresh_error. -/

/-- Modelled from the spec: refreshing one tracked key at cycle time t.
On success the entry is replaced wholesale by the freshly fetched slot
list; on failure the previous entry is kept (serve stale rather than
empty) and the error is recorded in last_refresh_error. -/
def refreshKey (fetch : Key → Except String (List Slot)) (t : Nat)
    (st : SyncState) (k : Key) : SyncState :=
  match fetch k with
  | .ok s => CacheStore.put st k { slots := s, fetched_at := t, source := .refresh }
  | .error m =>
      { st with stats := { st.stats with last_refresh_error := some m } }

/-- Modelled from the spec: one refresh cycle at time t over the tracked
key set: last_refresh_error is cleared (it is re-recorded by any key
that fails this cycle, so a fully successful refresh clears it), every
tracked key is refreshed in order, then refresh_count and
last_refresh_at are updated. -/
def refreshCycle (keys : List Key) (fetch : Key → Except String (List Slot))
    (t : Nat) (st : SyncState) : SyncState :=
  let st1 : SyncState :=
    { st with stats := { st.stats with last_refresh_error := none } }
  let st2 := List.foldl (refreshKey fetch t) st1 keys
  { st2 with stats := { st2.stats with
                        refresh_count := st2.stats.refresh_count + 1
                        last_refresh_at := some t } }

theorem refreshKey_store (fetch : Key → Except String (List Slot)) (t : Nat)
    (st : SyncState) (k q : Key) :
    (refreshKey fetch t st k).store q =
      if q = k then
        match fetch k with
        | .ok s => some { slots := s, fetched_at := t, source := .refresh }
        | .error _ => st.store q
      else st.store q := by
  rcases hf : fetch k with m | s
  · simp [refreshKey, hf]
  · simp only [refreshKey, hf, CacheStore.put, storeSet]

theorem refreshFold_store (fetch : Key → Except String (List Slot)) (t : Nat) :
    ∀ (keys : List Key) (st : SyncState) (q : Key),
      (List.foldl (refreshKey fetch t) st keys).store q =
        if q ∈ keys then
          match fetch q with
          | .ok s => some { slots := s, fetched_at := t, source := .refresh }
          | .error _ => st.store q
        else st.store q := by
  intro keys
  induction keys with
  | nil => intro st q; simp
  | cons k ks ih =>
      intro st q
      rw [List.foldl_cons, ih (refreshKey fetch t st k) q, refreshKey_store]
      by_cases hq : q ∈ ks
      · simp only [hq, if_true, List.mem_cons, or_true]
        rcases hf : fetch q with m | s
        · simp only [hf]
          by_cases hqk : q = k
          · subst hqk; simp [hf]
          · simp [hqk]
        · simp [hf]
      · simp only [hq, if_false, List.mem_cons]
        by_cases hqk : q = k
        · subst hqk
          simp only [true_or, if_true]
        · simp [hqk, hq]

theorem refreshFold_error_persists (fetch : Key → Except String (List Slot)) (t : Nat) :
    ∀ (keys : List Key) (st : SyncState),
      st.stats.last_refresh_error ≠ none →
      (List.foldl (refreshKey fetch t) st keys).stats.last_refresh_error ≠ none := by
  intro keys
  induction keys with
  | nil => intro st h; exact h
  | cons k ks ih =>
      intro st h
      rw [List.foldl_cons]
      apply ih
      rcases hf : fetch k with s | m <;> simp [refreshKey, hf, CacheStore.put, h]

theorem refreshFold_error_of_failure (fetch : Key → Except String (List Slot)) (t : Nat) :
    ∀ (keys : List Key) (st : SyncState) (k : Key) (m : String),
      k ∈ keys → fetch k = .error m →
      (List.foldl (refreshKey fetch t) st keys).stats.last_refresh_error ≠ none := by
  intro keys
  induction keys with
  | nil => intro st k m hk; exact absurd hk (List.not_mem_nil k)
  | cons k' ks ih =>
      intro st k m hk hf
      rw [List.foldl_cons]
      rcases List.mem_cons.mp hk with hk | hk
      · subst hk
        apply refreshFold_error_persists
        simp [refreshKey, hf]
      · exact ih (refreshKey fetch t st k') k m hk hf

/-- C3: a refresh cycle in which the fetch for key k fails leaves the
previous CacheStore entry of k intact (k is not evicted), still
refreshes every other tracked key whose fetch succeeds (the cycle is not
aborted), and records a non-null last_refresh_error in CacheStats. -/
theorem refresh_failure_isolated (keys : List Key)
    (fetch : Key → Except String (List Slot)) (t : Nat) (st : SyncState)
    (k : Key) (m : String) (hk : k ∈ keys) (hf : fetch k = .error m) :
    CacheStore.get (refreshCycle keys fetch t st) k = CacheStore.get st k ∧
    (∀ k' ∈ keys, k' ≠ k → ∀ s, fetch k' = .ok s →
      CacheStore.get (refreshCycle keys fetch t st) k' =
        some { slots := s, fetched_at := t, source := .refresh }) ∧
    (refreshCycle keys fetch t st).stats.last_refresh_error ≠ none := by
  refine ⟨?_, ?_, ?_⟩
  · show (List.foldl (refreshKey fetch t) _ keys).store k = st.store k
    rw [refreshFold_store]
    simp [hk, hf]
  · intro k' hk' hne s hs
    show (List.foldl (refreshKey fetch t) _ keys).store k' = _
    rw [refreshFold_store]
    simp [hk', hs]
  · show (List.foldl (refreshKey fetch t) _ keys).stats.last_refresh_error ≠ none
    exact refreshFold_error_of_failure fetch t keys _ k m hk hf

/-- Witness for C3: a concrete two-key cycle in which the fetch for the
first key fails: its prior five-slot entry survives, the second key is
refreshed, and last_refresh_error is non-null. -/
theorem refresh_failure_isolated_witness :
    (CacheStore.get
        (refreshCycle ["kA", "kB"]
          (fun q => if q = "kA" then .error "upstream 500"
                    else .ok [{ startTime := 1, endTime := 2, resource := "r", token := "t" }])
          7 (CacheStore.put initState "kA"
              { slots := [{ startTime := 0, endTime := 1, resource := "r", token := "a" },
                          { startTime := 1, endTime := 2, resource := "r", token := "b" },
                          { startTime := 2, endTime := 3, resource := "r", token := "c" },
                          { startTime := 3, endTime := 4, resource := "r", token := "d" },
                          { startTime := 4, endTime := 5, resource := "r", token := "e" }],
                fetched_at := 1, source := .refresh })) "kA"
      = CacheStore.get (CacheStore.put initState "kA"
              { slots := [{ startTime := 0, endTime := 1, resource := "r", token := "a" },
                          { startTime := 1, endTime := 2, resource := "r", token := "b" },
                          { startTime := 2, endTime := 3, resource := "r", token := "c" },
                          { startTime := 3, endTime := 4, resource := "r", token := "d" },
                          { startTime := 4, endTime := 5, resource := "r", token := "e" }],
                fetched_at := 1, source := .refresh }) "kA") ∧
    (refreshCycle ["kA", "kB"]
        (fun q => if q = "kA" then .error "upstream 500"
                  else .ok [{ startTime := 1, endTime := 2, resource := "r", token := "t" }])
        7 (CacheStore.put initState "kA"
            { slots := [{ startTime := 0, endTime := 1, resource := "r", token := "a" },
                        { startTime := 1, endTime := 2, resource := "r", token := "b" },
                        { startTime := 2, endTime := 3, resource := "r", token := "c" },
                        { startTime := 3, endTime := 4, resource := "r", token := "d" },
                        { startTime := 4, endTime := 5, resource := "r", token := "e" }],
              fetched_at := 1, source := .refresh })).stats.last_refresh_error ≠ none := by
  have h := refresh_failure_isolated ["kA", "kB"]
    (fun q => if q = "kA" then .error "upstream 500"
              else .ok [{ startTime := 1, endTime := 2, resource := "r", token := "t" }])
    7 (CacheStore.put initState "kA"
        { slots := [{ startTime := 0, endTime := 1, resource := "r", token := "a" },
                    { startTime := 1, endTime := 2, resource := "r", token := "b" },
                    { startTime := 2, endTime := 3, resource := "r", token := "c" },
                    { startTime := 3, endTime := 4, resource := "r", token := "d" },
                    { startTime := 4, endTime := 5, resource := "r", token := "e" }],
          fetched_at := 1, source := .refresh })
    "kA" "upstream 500" (by decide) rfl
  exact ⟨h.1, h.2.2⟩

/-! ## InvalidationGateway (modelled from the spec, section 4.4):
consumes normalized provider events, maps each to the affected CacheKeys,
invalidates each key immediately and then refetches it out-of-band,
putting the result back; if the refetch fails the key remains absent
until the next refresh cycle. -/

/-- Modelled from the spec: the kind of a normalized provider event. -/
inductive EventKind where
  | booking_created
  | booking_canceled
  | booking_rescheduled
  deriving Repr, DecidableEq

/-- Modelled from the spec: a normalized ProviderEvent, the shape derived
from the webhook payload after signature checking and parsing (which are
an external collaborator's job). -/
structure ProviderEvent where
  kind : EventKind
  resource_id : String
  window_start : Nat
  window_end : Nat
  received_at : Nat
  deriving Repr, DecidableEq

/-- Modelled from the spec: handling one affected key: invalidate it
immediately, then refetch it via UpstreamClient and put the result back;
refetch completion times are given by fetchDone.  If the refetch fails
the key remains absent. -/
def handleKey (fetch : Key → Except String (List Slot)) (fetchDone : Key → Nat)
    (st : SyncState) (k : Key) : SyncState :=
  let st1 := CacheStore.invalidate st k
  match fetch k with
  | .ok s => CacheStore.put st1 k
      { slots := s, fetched_at := fetchDone k, source := .invalidationRefetch }
  | .error _ => st1

/-- Modelled from the spec: InvalidationGateway.handle maps the event to
the affected CacheKeys (the key-mapping function is a parameter of the
gateway) and processes each affected key in order.  This path never
creates bookings. -/
def handle (keyMap : ProviderEvent → List Key)
    (fetch : Key → Except String (List Slot)) (fetchDone : Key → Nat)
    (st : SyncState) (e : ProviderEvent) : SyncState :=
  List.foldl (handleKey fetch fetchDone) st (keyMap e)

theorem handleKey_store (fetch : Key → Except String (List Slot))
    (fetchDone : Key → Nat) (st : SyncState) (k q : Key) :
    (handleKey fetch fetchDone st k).store q =
      if q = k then
        match fetch k with
        | .ok s => some { slots := s, fetched_at := fetchDone k,
                          source := .invalidationRefetch }
        | .error _ => none
      else st.store q := by
  rcases hf : fetch k with m | s
  · simp [handleKey, hf, CacheStore.invalidate, storeSet]
  · simp only [handleKey, hf, CacheStore.put, CacheStore.invalidate, storeSet]
    by_cases hq : q = k <;> simp [hq]

theorem handleFold_store (fetch : Key → Except String (List Slot))
    (fetchDone : Key → Nat) :
    ∀ (ks : List Key) (st : SyncState) (q : Key),
      (List.foldl (handleKey fetch fetchDone) st ks).store q =
        if q ∈ ks then
          match fetch q with
          | .ok s => some { slots := s, fetched_at := fetchDone q,
                            source := .invalidationRefetch }
          | .error _ => none
        else st.store q := by
  intro ks
  induction ks with
  | nil => intro st q; simp
  | cons k ks ih =>
      intro st q
      rw [List.foldl_cons, ih (handleKey fetch fetchDone st k) q, handleKey_store]
      by_cases hq : q ∈ ks
      · simp [hq]
      · simp only [hq, if_false, List.mem_cons]
        by_cases hqk : q = k
        · subst hqk
          simp only [true_or, if_true]
        · simp [hqk, hq]

/-- C4: after InvalidationGateway handles an event whose affected keys
include k, with every refetch completing at or after the invalidation
time t, the next get(k) is either a miss (none: the refetch failed, and
readers fall through to a synchronous refetch) or a refetch-populated
entry whose fetched_at is at or after t; it is never the
pre-invalidation entry. -/
theorem invalidation_next_get (keyMap : ProviderEvent → List Key)
    (fetch : Key → Except String (List Slot)) (fetchDone : Key → Nat)
    (st : SyncState) (e : ProviderEvent) (k : Key) (t : Nat)
    (hk : k ∈ keyMap e) (ht : ∀ q, t ≤ fetchDone q) :
    CacheStore.get (handle keyMap fetch fetchDone st e) k = none ∨
    (∃ s, fetch k = .ok s ∧
      CacheStore.get (handle keyMap fetch fetchDone st e) k =
        some { slots := s, fetched_at := fetchDone k,
               source := .invalidationRefetch } ∧
      t ≤ fetchDone k) := by
  have hstore := handleFold_store fetch fetchDone (keyMap e) st k
  rcases hf : fetch k with m | s
  · left
    show (List.foldl (handleKey fetch fetchDone) st (keyMap e)).store k = none
    rw [hstore]
    simp [hk, hf]
  · right
    refine ⟨s, rfl, ?_, ht k⟩
    show (List.foldl (handleKey fetch fetchDone) st (keyMap e)).store k = _
    rw [hstore]
    simp [hk, hf]

/-- Witness for C4: a concrete invalidation of a populated key, with the
refetch completing after the invalidation time, yields the
refetch-populated entry. -/
theorem invalidation_next_get_witness :
    CacheStore.get
        (handle (fun e => [e.resource_id])
          (fun _ => .ok [{ startTime := 12, endTime := 13, resource := "r1", token := "n" }])
          (fun _ => 21)
          (CacheStore.put initState "r1"
            { slots := [{ startTime := 9, endTime := 10, resource := "r1", token := "o" }],
              fetched_at := 3, source := .refresh })
          { kind := .booking_created, resource_id := "r1",
            window_start := 12, window_end := 13, received_at := 20 }) "r1"
      = none ∨
    (∃ s, (fun (_ : Key) =>
        (Except.ok [{ startTime := 12, endTime := 13, resource := "r1", token := "n" }] :
          Except String (List Slot))) "r1" = .ok s ∧
      CacheStore.get
        (handle (fun e => [e.resource_id])
          (fun _ => .ok [{ startTime := 12, endTime := 13, resource := "r1", token := "n" }])
          (fun _ => 21)
          (CacheStore.put initState "r1"
            { slots := [{ startTime := 9, endTime := 10, resource := "r1", token := "o" }],
              fetched_at := 3, source := .refresh })
          { kind := .booking_created, resource_id := "r1",
            window_start := 12, window_end := 13, received_at := 20 }) "r1"
        = some { slots := s, fetched_at := 21, source := .invalidationRefetch } ∧
      20 ≤ 21) :=
  invalidation_next_get (fun e => [e.resource_id])
    (fun _ => .ok [{ startTime := 12, endTime := 13, resource := "r1", token := "n" }])
    (fun _ => 21)
    (CacheStore.put initState "r1"
      { slots := [{ startTime := 9, endTime := 10, resource := "r1", token := "o" }],
        fetched_at := 3, source := .refresh })
    { kind := .booking_created, resource_id := "r1",
      window_start := 12, window_end := 13, received_at := 20 }
    "r1" 20 (by decide) (fun _ => by show 20 ≤ 21; omega)

theorem handleKey_stats (fetch : Key → Except String (List Slot))
    (fetchDone : Key → Nat) (st : SyncState) (k : Key) :
    (handleKey fetch fetchDone st k).stats =
      { st.stats with invalidation_count := st.stats.invalidation_count + 1 } := by
  rcases hf : fetch k with m | s <;>
    simp [handleKey, hf, CacheStore.put, CacheStore.invalidate]

theorem handleKey_bookings (fetch : Key → Except String (List Slot))
    (fetchDone : Key → Nat) (st : SyncState) (k : Key) :
    (handleKey fetch fetchDone st k).bookings = st.bookings := by
  rcases hf : fetch k with m | s <;>
    simp [handleKey, hf, CacheStore.put, CacheStore.invalidate]

theorem handleFold_stats (fetch : Key → Except String (List Slot))
    (fetchDone : Key → Nat) :
    ∀ (ks : List Key) (st : SyncState),
      (List.foldl (handleKey fetch fetchDone) st ks).stats =
        { st.stats with
          invalidation_count := st.stats.invalidation_count + ks.length } := by
  intro ks
  induction ks with
  | nil => intro st; rfl
  | cons k ks ih =>
      intro st
      rw [List.foldl_cons, ih, handleKey_stats]
      simp [Nat.add_assoc, Nat.add_comm 1 ks.length]

theorem handleFold_bookings (fetch : Key → Except String (List Slot))
    (fetchDone : Key → Nat) :
    ∀ (ks : List Key) (st : SyncState),
      (List.foldl (handleKey fetch fetchDone) st ks).bookings = st.bookings := by
  intro ks
  induction ks with
  | nil => intro st; rfl
  | cons k ks ih =>
      intro st
      rw [List.foldl_cons, ih, handleKey_bookings]

/-- Counterexample for C8: handling the same event twice does not leave
CacheStats in the same state as handling it once: each handling
increments the monotonic invalidation_count counter, so after two
handlings it is 2 but after one it is 1. -/
theorem handle_twice_stats_counterexample :
    (handle (fun e => [e.resource_id]) (fun _ => .ok []) (fun _ => 9)
        (handle (fun e => [e.resource_id]) (fun _ => .ok []) (fun _ => 9) initState
          { kind := .booking_canceled, resource_id := "r1",
            window_start := 4, window_end := 6, received_at := 8 })
        { kind := .booking_canceled, resource_id := "r1",
          window_start := 4, window_end := 6, received_at := 8 }).stats
      ≠
    (handle (fun e => [e.resource_id]) (fun _ => .ok []) (fun _ => 9) initState
        { kind := .booking_canceled, resource_id := "r1",
          window_start := 4, window_end := 6, received_at := 8 }).stats := by
  intro h
  have h2 := congrArg CacheStats.invalidation_count h
  exact absurd h2 (by decide)

/-- C8 (amended): handling the same ProviderEvent twice from the same
state, with the same refetch results, leaves the CacheStore map exactly
as handling it once, creates no bookings (the bookings list is
untouched), and does not corrupt CacheStats: hits, misses,
refresh_count, last_refresh_at and last_refresh_error are exactly those
of handling once, and the monotonic invalidation_count only advances. -/
theorem handle_twice_store_idempotent (keyMap : ProviderEvent → List Key)
    (fetch : Key → Except String (List Slot)) (fetchDone : Key → Nat)
    (st : SyncState) (e : ProviderEvent) :
    (handle keyMap fetch fetchDone (handle keyMap fetch fetchDone st e) e).store =
      (handle keyMap fetch fetchDone st e).store ∧
    (handle keyMap fetch fetchDone (handle keyMap fetch fetchDone st e) e).bookings =
      st.bookings ∧
    (handle keyMap fetch fetchDone (handle keyMap fetch fetchDone st e) e).stats.hits =
      (handle keyMap fetch fetchDone st e).stats.hits ∧
    (handle keyMap fetch fetchDone (handle keyMap fetch fetchDone st e) e).stats.misses =
      (handle keyMap fetch fetchDone st e).stats.misses ∧
    (handle keyMap fetch fetchDone (handle keyMap fetch fetchDone st e) e).stats.refresh_count =
      (handle keyMap fetch fetchDone st e).stats.refresh_count ∧
    (handle keyMap fetch fetchDone (handle keyMap fetch fetchDone st e) e).stats.last_refresh_at =
      (handle keyMap fetch fetchDone st e).stats.last_refresh_at ∧
    (handle keyMap fetch fetchDone (handle keyMap fetch fetchDone st e) e).stats.last_refresh_error =
      (handle keyMap fetch fetchDone st e).stats.last_refresh_error ∧
    (handle keyMap fetch fetchDone st e).stats.invalidation_count ≤
      (handle keyMap fetch fetchDone (handle keyMap fetch fetchDone st e) e).stats.invalidation_count := by
  refine ⟨?_, ?_, ?_, ?_, ?_, ?_, ?_, ?_⟩
  · funext q
    simp only [handle]
    rw [handleFold_store, handleFold_store]
    by_cases hq : q ∈ keyMap e <;> simp [hq]
  · simp only [handle]
    rw [handleFold_bookings, handleFold_bookings]
  · simp only [handle]
    rw [handleFold_stats, handleFold_stats]
  · simp only [handle]
    rw [handleFold_stats, handleFold_stats]
  · simp only [handle]
    rw [handleFold_stats, handleFold_stats]
  · simp only [handle]
    rw [handleFold_stats, handleFold_stats]
  · simp only [handle]
    rw [handleFold_stats, handleFold_stats]
  · simp only [handle]
    rw [handleFold_stats fetch fetchDone (keyMap e)
        (List.foldl (handleKey fetch fetchDone) st (keyMap e)),
      handleFold_stats fetch fetchDone (keyMap e) st]
    simp

/-! ## AvailabilityService (modelled from the spec, section 4.5 and the
propagation policy of section 7). -/

/-- Modelled from the spec: the result of get_availability: a slot list,
or the AvailabilityUnavailable failure propagated to the tool-calling
layer. -/
inductive AvailResult where
  | ok (slots : List Slot)
  | unavailable
  deriving Repr, DecidableEq

/-- Modelled from the spec: AvailabilityService.get_availability at time
now with staleness ceiling: on a CacheStore hit with a fresh entry it
returns the cached slots and counts a hit; on a miss or an entry older
than the staleness ceiling it synchronously calls UpstreamClient,
populates CacheStore and counts a miss; if the fallback fails while a
stale entry exists, the stale entry is served (serve-stale-on-error);
only when no entry exists at all and the fallback also fails does it
fail with AvailabilityUnavailable. -/
def getAvailability (ceiling now : Nat) (fetch : Key → Except String (List Slot))
    (st : SyncState) (k : Key) : AvailResult × SyncState :=
  match st.store k with
  | some e =>
      if now - e.fetched_at ≤ ceiling then
        (.ok e.slots,
          { st with stats := { st.stats with hits := st.stats.hits + 1 } })
      else
        match fetch k with
        | .ok s =>
            (.ok s,
              CacheStore.put
                { st with stats := { st.stats with misses := st.stats.misses + 1 } }
                k { slots := s, fetched_at := now, source := .refresh })
        | .error _ =>
            (.ok e.slots,
              { st with stats := { st.stats with misses := st.stats.misses + 1 } })
  | none =>
      match fetch k with
      | .ok s =>
          (.ok s,
            CacheStore.put
              { st with stats := { st.stats with misses := st.stats.misses + 1 } }
              k { slots := s, fetched_at := now, source := .refresh })
      | .error _ =>
          (.unavailable,
            { st with stats := { st.stats with misses := st.stats.misses + 1 } })

/-- C5: get_availability fails with AvailabilityUnavailable exactly when
no cached entry exists for the key at all and the synchronous fallback
call also fails; in every other case it returns a slot list (the only
other constructor of the result carries slots), never silently returning
empty data in the failure case. -/
theorem availability_unavailable_iff (ceiling now : Nat)
    (fetch : Key → Except String (List Slot)) (st : SyncState) (k : Key) :
    ((getAvailability ceiling now fetch st k).1 = .unavailable ↔
      CacheStore.get st k = none ∧ ∃ m, fetch k = .error m) ∧
    ((getAvailability ceiling now fetch st k).1 = .unavailable ∨
      ∃ s, (getAvailability ceiling now fetch st k).1 = .ok s) := by
  constructor
  · rcases he : st.store k with _ | e
    · rcases hf : fetch k with m | s
      · simp [getAvailability, he, hf, CacheStore.get]
      · simp [getAvailability, he, hf, CacheStore.get]
    · simp only [getAvailability, he]
      by_cases hfresh : now - e.fetched_at ≤ ceiling
      · simp [hfresh, CacheStore.get, he]
      · rcases hf : fetch k with m | s
        · simp [hfresh, hf, CacheStore.get, he]
        · simp [hfresh, hf, CacheStore.get, he]
  · rcases hr : (getAvailability ceiling now fetch st k).1 with s | _
    · exact Or.inr ⟨s, rfl⟩
    · exact Or.inl rfl

/-- Witness for C5: with an empty cache and a failing upstream, the
concrete call fails with AvailabilityUnavailable; the iff is applied at
a concrete input. -/
theorem availability_unavailable_iff_witness :
    (getAvailability 120 50 (fun _ => .error "timeout") initState "k").1
      = .unavailable :=
  (availability_unavailable_iff 120 50 (fun _ => .error "timeout") initState "k").1.mpr
    ⟨rfl, "timeout", rfl⟩

/-! ## BackgroundRefresher single-flight discipline (modelled from the
spec, section 4.3 concurrency): exactly one refresh cycle may be in
flight at a time; a tick arriving while a cycle is still running is
skipped, with no queue of pending cycles. -/

/-- Modelled from the spec: the scheduler-visible state of the
BackgroundRefresher: how many refresh cycles are currently in flight.
There is deliberately no queue of pending cycles in the state. -/
structure RefresherState where
  inFlight : Nat
  deriving Repr, DecidableEq

/-- Modelled from the spec: the events driving the refresher: a timer
tick, and the completion of a running cycle. -/
inductive RefresherEvent where
  | tick
  | cycleDone
  deriving Repr, DecidableEq

/-- Modelled from the spec: a tick starts a cycle only when none is in
flight (compare-and-swap on the running flag); a tick arriving while a
cycle runs leaves the state unchanged (the tick is skipped entirely);
cycle completion releases the flag. -/
def refresherStep (s : RefresherState) : RefresherEvent → RefresherState
  | .tick => if s.inFlight = 0 then { inFlight := s.inFlight + 1 } else s
  | .cycleDone => { inFlight := s.inFlight - 1 }

/-- Modelled from the spec: the refresher starts with no cycle in
flight and processes its events in order. -/
def refresherRun (evs : List RefresherEvent) : RefresherState :=
  List.foldl refresherStep { inFlight := 0 } evs

theorem refresherStep_le_one (s : RefresherState) (ev : RefresherEvent)
    (h : s.inFlight ≤ 1) : (refresherStep s ev).inFlight ≤ 1 := by
  cases ev with
  | tick =>
      by_cases h0 : s.inFlight = 0
      · simp [refresherStep, h0]
      · simpa [refresherStep, h0] using h
  | cycleDone =>
      simp only [refresherStep]
      omega

/-- C7: in every reachable refresher state at most one refresh cycle is
in flight, and a tick that arrives while a cycle is in flight is skipped
entirely: it changes nothing (in particular, nothing is queued, since
the state has no queue to begin with). -/
theorem refresher_single_flight (evs : List RefresherEvent) :
    (refresherRun evs).inFlight ≤ 1 ∧
    ((refresherRun evs).inFlight = 1 →
      refresherRun (evs ++ [.tick]) = refresherRun evs) := by
  constructor
  · have : ∀ (l : List RefresherEvent) (s : RefresherState), s.inFlight ≤ 1 →
        (List.foldl refresherStep s l).inFlight ≤ 1 := by
      intro l
      induction l with
      | nil => intro s hs; exact hs
      | cons ev l ih =>
          intro s hs
          exact ih (refresherStep s ev) (refresherStep_le_one s ev hs)
    exact this evs { inFlight := 0 } (by decide)
  · intro h1
    show List.foldl refresherStep { inFlight := 0 } (evs ++ [.tick]) = _
    rw [List.foldl_append]
    show refresherStep (refresherRun evs) .tick = refresherRun evs
    simp [refresherStep, h1]

/-- Witness for C7: after one tick a cycle is in flight, and a second
tick arriving before cycleDone is a no-op. -/
theorem refresher_single_flight_witness :
    (refresherRun [RefresherEvent.tick]).inFlight ≤ 1 ∧
    refresherRun [RefresherEvent.tick, RefresherEvent.tick]
      = refresherRun [RefresherEvent.tick] :=
  ⟨(refresher_single_flight [RefresherEvent.tick]).1,
   (refresher_single_flight [RefresherEvent.tick]).2 rfl⟩

/-! ## JavaScript string primitives used by the frontend sources,
embedded as structurally recursive functions over the character list of
a string so that they evaluate on concrete inputs.  jsSplitNl is
String.prototype.split with separator newline, jsTrim is
String.prototype.trim, jsSlice n is String.prototype.slice(n), jsStart
is String.prototype.startsWith; the frontend only applies them to ASCII
protocol text, where code points and UTF-16 code units agree. -/

/-- Splitting a character list on the newline character, JS split
semantics: the result is never empty, and a trailing newline yields a
trailing empty segment. -/
def splitNlChars : List Char → List (List Char)
  | [] => [[]]
  | c :: cs =>
    let r := splitNlChars cs
    if c = '\n' then [] :: r
    else
      match r with
      | h :: t => (c :: h) :: t
      | [] => [[c]]

/-- JS string split on newline. -/
def jsSplitNl (s : String) : List String :=
  (splitNlChars s.data).map String.mk

/-- Whether the first character list is a leading segment of the
second. -/
def charsStart : List Char → List Char → Bool
  | [], _ => true
  | _ :: _, [] => false
  | a :: ps, b :: ls => a = b && charsStart ps ls

/-- JS startsWith. -/
def jsStart (p s : String) : Bool :=
  charsStart p.data s.data

/-- JS trim: whitespace removed from both ends. -/
def jsTrim (s : String) : String :=
  ⟨((s.data.dropWhile Char.isWhitespace).reverse.dropWhile
      Char.isWhitespace).reverse⟩

/-- JS slice(n): the string without its first n characters. -/
def jsSlice (n : Nat) (s : String) : String :=
  ⟨s.data.drop n⟩

/-! ## Frontend: streamChatMessage (src/frontend/src/services/api.ts,
lines 35-91).  The function reads the response body chunk by chunk,
accumulates a line buffer, splits on newlines keeping the trailing
partial line in the buffer, and dispatches server-sent-event lines to
the onChunk, onComplete and onError callbacks; after the reader reports
done it calls onComplete once more unconditionally.  We embed the loop
as a function from the list of decoded chunks to the trace of callback
invocations. -/

/-- One callback invocation made by streamChatMessage. -/
inductive SseCallback where
  | chunk (data : String)
  | complete
  | error (data : String)
  deriving Repr, DecidableEq

/-- One line of the SSE parse loop (api.ts lines 74-86): an event line
updates currentEvent to the trimmed text after the 6-character prefix; a
data line dispatches on currentEvent, taking the text after the
5-character prefix as data; onChunk fires only for a nonempty data value
of a message event; any other line is ignored. -/
def lineStep (ev : String) (line : String) : String × List SseCallback :=
  if jsStart "event:" line then (jsTrim (jsSlice 6 line), [])
  else if jsStart "data:" line then
    let data := jsSlice 5 line
    if ev = "done" then (ev, [.complete])
    else if ev = "error" then (ev, [.error data])
    else if ev = "message" ∧ data ≠ "" then (ev, [.chunk data])
    else (ev, [])
  else (ev, [])

/-- The inner for-loop over the complete lines of one read iteration;
currentEvent starts at "message" afresh in every iteration (api.ts line
72) and is threaded through the lines of that iteration only. -/
def processLines : String → List String → List SseCallback
  | _, [] => []
  | ev, l :: ls =>
    let p := lineStep ev l
    p.2 ++ processLines p.1 ls

/-- The complete (newline-terminated) lines produced by one read: the
buffer plus the new chunk is split on newlines and the final element is
held back (api.ts lines 67-68: buffer becomes lines.pop(), or the empty
string when that is empty). -/
def chunkLines (buf c : String) : List String :=
  (jsSplitNl (buf ++ c)).dropLast

/-- The new buffer after one read: the trailing element of the split,
which is the still-unterminated partial line. -/
def advanceBuffer (buf c : String) : String :=
  ((jsSplitNl (buf ++ c)).getLast?).getD ""

/-- The read loop of streamChatMessage (api.ts lines 62-88): each read
appends its callbacks; the buffer carries over between reads. -/
def streamLoop : String → List String → List SseCallback
  | _, [] => []
  | buf, c :: cs =>
    processLines "message" (chunkLines buf c) ++ streamLoop (advanceBuffer buf c) cs

/-- streamChatMessage on a response body delivered as the given list of
decoded chunks: the read loop runs to completion and then onComplete is
invoked once more, unconditionally (api.ts line 90). -/
def streamChatMessage (chunks : List String) : List SseCallback :=
  streamLoop "" chunks ++ [.complete]

/-- The number of onComplete invocations in a callback trace. -/
def countComplete (cbs : List SseCallback) : Nat :=
  cbs.countP (fun c => decide (c = .complete))

/-- Whether a line sequence contains a done event followed by a data
line, under the same currentEvent tracking the parser uses: this is the
shape of a server-sent event of type done carrying a data line. -/
def sseDonePattern : String → List String → Bool
  | _, [] => false
  | ev, l :: ls =>
    if jsStart "event:" l then sseDonePattern (jsTrim (jsSlice 6 l)) ls
    else if jsStart "data:" l ∧ ev = "done" then true
    else sseDonePattern ev ls

/-- The buffer content entering the read of a given chunk, obtained by
folding the buffer evolution over the preceding chunks. -/
def bufAfter (buf : String) (chunks : List String) : String :=
  List.foldl advanceBuffer buf chunks

theorem processLines_cons (ev l : String) (ls : List String) :
    countComplete (processLines ev (l :: ls)) =
      countComplete (lineStep ev l).2 +
        countComplete (processLines (lineStep ev l).1 ls) := by
  show countComplete ((lineStep ev l).2 ++ processLines (lineStep ev l).1 ls) = _
  unfold countComplete
  rw [List.countP_append]

theorem lineStep_fst_of_not_event (ev l : String)
    (h1 : ¬ jsStart "event:" l = true) : (lineStep ev l).1 = ev := by
  simp only [lineStep, h1, if_false]
  split_ifs <;> first | rfl | exact (‹False›).elim

theorem processLines_complete_of_pattern :
    ∀ (ls : List String) (ev : String), sseDonePattern ev ls = true →
      1 ≤ countComplete (processLines ev ls) := by
  intro ls
  induction ls with
  | nil => intro ev h; simp [sseDonePattern] at h
  | cons l ls ih =>
      intro ev h
      rw [processLines_cons]
      by_cases h1 : jsStart "event:" l = true
      · have hpat : sseDonePattern (jsTrim (jsSlice 6 l)) ls = true := by
          simpa [sseDonePattern, h1] using h
        have hrec := ih _ hpat
        have hls : lineStep ev l = (jsTrim (jsSlice 6 l), []) := by
          simp [lineStep, h1]
        rw [hls]
        simpa [countComplete] using hrec
      · by_cases h2 : jsStart "data:" l = true ∧ ev = "done"
        · obtain ⟨h2a, h2b⟩ := h2
          subst h2b
          have hls : lineStep "done" l = ("done", [SseCallback.complete]) := by
            simp [lineStep, h1, h2a]
          rw [hls]
          have hone : countComplete [SseCallback.complete] = 1 := rfl
          show 1 ≤ countComplete [SseCallback.complete] +
            countComplete (processLines "done" ls)
          omega
        · have hfst : (lineStep ev l).1 = ev := lineStep_fst_of_not_event ev l h1
          have hpat : sseDonePattern ev ls = true := by
            by_cases hd : jsStart "data:" l = true
            · have hne : ¬ ev = "done" := fun he => h2 ⟨hd, he⟩
              simpa [sseDonePattern, h1, hd, hne] using h
            · simpa [sseDonePattern, h1, hd] using h
          have hrec := ih ev hpat
          rw [hfst]
          omega

theorem streamLoop_complete_of_pattern :
    ∀ (pre : List String) (buf : String) (s : String) (post : List String),
      sseDonePattern "message" (chunkLines (bufAfter buf pre) s) = true →
      1 ≤ countComplete (streamLoop buf (pre ++ s :: post)) := by
  intro pre
  induction pre with
  | nil =>
      intro buf s post h
      have h' : sseDonePattern "message" (chunkLines buf s) = true := by
        simpa [bufAfter] using h
      have h1 := processLines_complete_of_pattern (chunkLines buf s) "message" h'
      have h2 : streamLoop buf ([] ++ s :: post)
          = processLines "message" (chunkLines buf s)
            ++ streamLoop (advanceBuffer buf s) post := rfl
      rw [h2]
      unfold countComplete at h1 ⊢
      rw [List.countP_append]
      omega
  | cons c pre ih =>
      intro buf s post h
      have h1 := ih (advanceBuffer buf c) s post (by
        simpa [bufAfter, List.foldl_cons] using h)
      have h2 : streamLoop buf ((c :: pre) ++ s :: post)
          = processLines "message" (chunkLines buf c)
            ++ streamLoop (advanceBuffer buf c) (pre ++ s :: post) := rfl
      rw [h2]
      unfold countComplete at h1 ⊢
      rw [List.countP_append]
      omega

/-- Counterexample for C9: a response body stream that does contain a
server-sent event of type done with a data line, but delivered so that
the event line and the data line arrive in different reads: the loop
resets currentEvent to message at each read, so the data line of the
done event is treated as a message chunk and onComplete fires exactly
once (the unconditional post-loop call), not at least twice. -/
theorem streamChat_split_done_counterexample :
    sseDonePattern "message" (jsSplitNl "event: done\ndata: [DONE]\n") = true ∧
    countComplete (streamChatMessage ["event: done\n", "data: [DONE]\n"]) = 1 := by
  constructor
  · decide
  · decide

/-- C9 (amended): streamChatMessage always invokes onComplete at least
once (the unconditional call after the reader reports done), and invokes
it at least twice whenever some single read iteration parses, among its
newline-terminated lines, a done event line followed by its data line:
once from the in-loop dispatch and once from the unconditional post-loop
call.  When the done event is split across reads the in-loop dispatch is
missed, as the counterexample shows. -/
theorem streamChat_onComplete_invocations (chunks : List String) :
    1 ≤ countComplete (streamChatMessage chunks) ∧
    (∀ pre s post, chunks = pre ++ s :: post →
      sseDonePattern "message" (chunkLines (bufAfter "" pre) s) = true →
      2 ≤ countComplete (streamChatMessage chunks)) := by
  have h3 : List.countP (fun c => decide (c = SseCallback.complete))
      [SseCallback.complete] = 1 := rfl
  constructor
  · unfold streamChatMessage countComplete
    rw [List.countP_append, h3]
    omega
  · intro pre s post hsplit hpat
    subst hsplit
    have h1 := streamLoop_complete_of_pattern pre "" s post hpat
    unfold countComplete at h1
    unfold streamChatMessage countComplete
    rw [List.countP_append, h3]
    omega

/-- Witness for C9 (amended): a single-read body carrying the full done
event yields at least the two onComplete invocations promised. -/
theorem streamChat_onComplete_invocations_witness :
    2 ≤ countComplete (streamChatMessage ["event: done\ndata: [DONE]\n\n"]) :=
  (streamChat_onComplete_invocations ["event: done\ndata: [DONE]\n\n"]).2
    [] "event: done\ndata: [DONE]\n\n" [] rfl (by decide)

/-! ## Frontend: App.handleSendMessage (src/frontend/src/App.tsx, lines
44-77).  The handler guards on empty or whitespace-only content and on a
send already in progress, then appends the user message and an empty
assistant placeholder, sets the loading flag and the streaming message
id, and issues the streaming request. -/

/-- The type tag of a chat message (src/frontend/src/types: MessageType
is user, assistant or error). -/
inductive MessageType where
  | user
  | assistant
  | error
  deriving Repr, DecidableEq

/-- A chat message as kept in the App message list (id, content, type,
timestamp). -/
structure Message where
  id : String
  content : String
  type : MessageType
  timestamp : Nat
  deriving Repr, DecidableEq

/-- A request sent to the backend chat endpoint (message text and thread
identifier). -/
structure ChatRequest where
  message : String
  thread_id : String
  deriving Repr, DecidableEq

/-- The part of the App component state that handleSendMessage touches:
the message list, the loading flag, and the streaming message id. -/
structure AppState where
  messages : List Message
  isLoading : Bool
  streamingMessageId : Option String
  deriving Repr, DecidableEq

/-- The synchronous prefix of App.handleSendMessage (App.tsx lines
44-62): with empty-after-trim content or while loading it returns
immediately; otherwise it appends the user message and the empty
assistant placeholder, sets isLoading and streamingMessageId, and issues
the streaming chat request.  Fresh message ids and the current time are
passed in (the source derives them from Date.now and Math.random); the
returned list holds the network requests issued. -/
def handleSendMessage (st : AppState) (content : String) (now : Nat)
    (userMsgId assistantMsgId threadId : String) : AppState × List ChatRequest :=
  if jsTrim content = "" ∨ st.isLoading = true then (st, [])
  else
    ({ messages := st.messages ++
        [{ id := userMsgId, content := content, type := .user, timestamp := now },
         { id := assistantMsgId, content := "", type := .assistant, timestamp := now }]
       isLoading := true
       streamingMessageId := some assistantMsgId },
     [{ message := content, thread_id := threadId }])

/-- C10: a call to handleSendMessage whose content is empty or
whitespace-only after trimming, or made while isLoading is true, returns
immediately: the message list, the loading flag and the streaming
message id are unchanged and no network request is issued. -/
theorem handleSendMessage_guard (st : AppState) (content : String) (now : Nat)
    (userMsgId assistantMsgId threadId : String)
    (h : jsTrim content = "" ∨ st.isLoading = true) :
    handleSendMessage st content now userMsgId assistantMsgId threadId = (st, []) := by
  rcases h with h | h <;> simp [handleSendMessage, h]

/-- Witness for C10: a whitespace-only send while idle, and a nonempty
send while loading, both leave the state untouched and issue nothing. -/
theorem handleSendMessage_guard_witness :
    handleSendMessage
        { messages := [], isLoading := false, streamingMessageId := none }
        "   " 3 "u1" "a1" "t1"
      = ({ messages := [], isLoading := false, streamingMessageId := none }, []) ∧
    handleSendMessage
        { messages := [], isLoading := true, streamingMessageId := some "a0" }
        "hello" 4 "u2" "a2" "t1"
      = ({ messages := [], isLoading := true, streamingMessageId := some "a0" }, []) :=
  ⟨handleSendMessage_guard _ "   " 3 "u1" "a1" "t1" (Or.inl (by decide)),
   handleSendMessage_guard _ "hello" 4 "u2" "a2" "t1" (Or.inr rfl)⟩

end AcmeDental
